import Mathlib

/-!
Verification of the bspump pipeline runtime against its specification.

This file gives a shallow embedding of the parts of the repository that the
verified properties talk about:

* `bspump/pipeline.py` — readiness / throttle state machine (`_evaluate_ready`,
  `throttle`, `set_error`), the chain walker (`_do_process`), generator
  expansion (`_generator_process`) and the `process` entry point;
* `bspump/service.py` — the three registry namespaces and `initialize`;
* `bspump/mysql/lookup.py` and `bspump/elasticsearch/lookup.py` — the cached
  `__getitem__` of the two lookups.

Python dictionaries are modelled as association lists (first binding wins on
lookup), Python sets as `Finset ℕ`, opaque tokens / ids / events as `ℕ`,
exceptions as an explicit `Exc` value returned through `Except` or a dedicated
result constructor.  In-place mutation becomes explicit state passing.  The
asyncio machinery is collapsed into the sequential order in which the
single-threaded event loop runs the code; awaiting readiness performs no state
change and is therefore not represented as a step of its own (theorems about
the processing path describe the execution once the readiness wait has
completed).
-/

namespace BSPump

/-- A Python `dict` with `ℕ` keys and values, as an association list.
Lookup takes the first binding of a key. -/
abbrev Dict := List (ℕ × ℕ)

/-- Membership test of a key, `k in d`. -/
def dictHasKey (d : Dict) (k : ℕ) : Bool :=
  d.any (fun pr => pr.1 == k)

/-- `d[k]`, returning `none` when the key is absent. -/
def dictLookup (d : Dict) (k : ℕ) : Option ℕ :=
  (d.find? (fun pr => pr.1 == k)).map Prod.snd

/-- `d[k] = v`: replace the binding when the key is present, append otherwise. -/
def dictSet (d : Dict) (k v : ℕ) : Dict :=
  if dictHasKey d k then d.map (fun pr => if pr.1 == k then (k, v) else pr)
  else d ++ [(k, v)]

/-- `a.update(b)`: every key of `b` ends up bound to `b`'s value, the other
keys of `a` keep theirs.  (The iteration order of CPython differs, but no
verified property depends on iteration order.) -/
def dictUpdate (a b : Dict) : Dict :=
  a.filter (fun pr => !(dictHasKey b pr.1)) ++ b

/-- A value travelling through the processor chain: either an opaque event or
a Python generator object, which the walker recognises with
`isinstance(event, types.GeneratorType)`.  The items yielded by a generator
are opaque events. -/
inductive PyVal
  | num (n : ℕ)
  | genv (subs : List ℕ)
deriving DecidableEq

/-- An exception value: either one raised by user code inside a processor, or
the `ProcessingError` that `_do_process` raises for an incomplete pipeline
(it carries the unconsumed event). -/
inductive Exc
  | user (n : ℕ)
  | procErr (ev : PyVal)
deriving DecidableEq

/-- What a processor's `process(context, event)` does: return `None`, return a
value, or raise. -/
inductive PyRet
  | pyNone
  | pyVal (v : PyVal)
  | pyRaise (e : Exc)
deriving DecidableEq

/-- A processor of the chain.  `isSink` is `isinstance(processor, Sink)`.
`run` is its `process(context, event)` method; it returns its result together
with the context dict, which it may have mutated in place. -/
structure Proc where
  isSink : Bool
  run : Dict → PyVal → PyRet × Dict

/-- Messages published on the pipeline's pub/sub bus (the `bspump.pipeline.*!`
topics the verified properties mention). -/
inductive PubMsg
  | ready
  | notReady
  | warning
  | error
  | clearError
deriving DecidableEq

/-- The mutable state of one `Pipeline` object: `_error`, `_throttles`, the
`_ready` asyncio event (its flag), the metrics counters touched by the
verified properties, the published messages (in publish order) and the base
context `_context`.  (The duty-cycle gauge, source list and log ring are not
modelled; no verified property mentions them.) -/
structure PState where
  error : Option (Dict × PyVal × Exc × ℕ)
  throttles : Finset ℕ
  readyFlag : Bool
  evIn : ℕ
  evOut : ℕ
  evDrop : ℕ
  cWarning : ℕ
  cError : ℕ
  pubs : List PubMsg
  ctxBase : Dict
deriving DecidableEq

/-- The state of a pipeline right after `Pipeline.__init__`: no error, empty
throttle set, and the `_ready` event explicitly cleared. -/
def init0 : PState :=
  { error := none, throttles := ∅, readyFlag := false,
    evIn := 0, evOut := 0, evDrop := 0, cWarning := 0, cError := 0,
    pubs := [], ctxBase := [] }

/-- `Pipeline._evaluate_ready`: recompute readiness from the error state and
the size of the throttle set, and on an edge set or clear the `_ready` event
and publish `bspump.pipeline.ready!` or `bspump.pipeline.not_ready!`. -/
def evaluate_ready (s : PState) : PState :=
  let newReady := s.error.isNone && (s.throttles.card == 0)
  if s.readyFlag == newReady then s
  else if newReady then
    { s with readyFlag := true, pubs := s.pubs ++ [PubMsg.ready] }
  else
    { s with readyFlag := false, pubs := s.pubs ++ [PubMsg.notReady] }

/-- `Pipeline.is_ready`: `self._ready.is_set()`. -/
def is_ready (s : PState) : Bool := s.readyFlag

/-- `Pipeline.throttle(who, enable)`.  Enabling is `set.add`; disabling is
`set.remove`, which raises `KeyError` when the token is absent — modelled by
`Except.error ()`, the set untouched and `_evaluate_ready` not reached. -/
def throttle (s : PState) (who : ℕ) (enable : Bool) : Except Unit PState :=
  if enable then
    Except.ok (evaluate_ready { s with throttles := insert who s.throttles })
  else if who ∈ s.throttles then
    Except.ok (evaluate_ready { s with throttles := s.throttles.erase who })
  else
    Except.error ()

/-- `Pipeline.set_error(context, event, exc)`.  `catchErr` is the subclass
hook `catch_error` (the base class returns `True`); `now` is `App.time()`.
With `exc = none` and an error present the error is cleared,
`bspump.pipeline.clear_error!` published and readiness re-evaluated (the
source restarts are not modelled; they do not touch any modelled field).
With an exception, a soft error only bumps the `warning` counter and
publishes `bspump.pipeline.warning!` — the `error`-counter line after the
`return` in the source is unreachable and hence absent here — while a hard
error stores the error tuple, publishes `bspump.pipeline.error!` and
re-evaluates readiness. -/
def set_error (catchErr : Exc → PyVal → Bool) (s : PState)
    (ctx : Dict) (ev : PyVal) (exc : Option Exc) (now : ℕ) : PState :=
  match exc with
  | none =>
    if s.error.isSome then
      evaluate_ready { s with error := none, pubs := s.pubs ++ [PubMsg.clearError] }
    else s
  | some e =>
    if catchErr e ev then
      evaluate_ready
        { s with error := some (ctx, ev, e, now),
                 pubs := s.pubs ++ [PubMsg.error] }
    else
      { s with cWarning := s.cWarning + 1, pubs := s.pubs ++ [PubMsg.warning] }

/-- The `catch_error` of the base `Pipeline` class: every error is hard. -/
def catchT : Exc → PyVal → Bool := fun _ _ => true

/-- One externally invoked call of the readiness state machine: a
`throttle(who, enable)` or a `set_error(ctx, ev, exc)` at time `now`. -/
inductive Op
  | thr (who : ℕ) (enable : Bool)
  | err (ctx : Dict) (ev : PyVal) (exc : Option Exc) (now : ℕ)
deriving DecidableEq

/-- Run one call.  A `throttle` that raises `KeyError` leaves the pipeline
state unchanged (the exception propagates to the caller). -/
def runOp (catchErr : Exc → PyVal → Bool) (s : PState) : Op → PState
  | Op.thr who en =>
    match throttle s who en with
    | Except.ok t => t
    | Except.error _ => s
  | Op.err ctx ev exc now => set_error catchErr s ctx ev exc now

/-- Run a sequence of calls. -/
def runOps (catchErr : Exc → PyVal → Bool) (s : PState) (ops : List Op) : PState :=
  ops.foldl (runOp catchErr) s

/-- The ready flag agrees with the readiness predicate of the specification:
`is_ready ↔ (no error ∧ throttle set empty)`.  This holds after any run of
`_evaluate_ready`, but not in a freshly constructed pipeline. -/
def consistent (s : PState) : Prop :=
  s.readyFlag = true ↔ (s.error = none ∧ s.throttles = ∅)

instance decConsistent (s : PState) : Decidable (consistent s) := by
  unfold consistent
  infer_instance

/-- The outcome of `Pipeline._do_process`: the event was consumed (`return`
after `event is None`), a generator was returned for expansion at the next
depth, or an exception propagated to the caller. -/
inductive DoResult
  | consumed
  | expand (subs : List ℕ)
  | raised (e : Exc)
deriving DecidableEq

/-- The `for processor in self.Processors[depth]` loop of
`Pipeline._do_process`, together with the code after the loop.  `procsLen` is
`len(self.Processors)`.  The walker threads the context dict (processors may
mutate it in place) and the pipeline state (counters, `set_error`):

* a processor raising at depth `> 0` re-raises immediately; at depth `0` the
  exception is routed through `set_error` and then re-raised;
* a processor returning `None` consumes the event, and the out/drop counters
  are touched only when `len(self.Processors) == depth + 1`;
* any other return value replaces the event and the walk continues;
* after the loop, a generator value is handed back for expansion when
  `len(self.Processors) > depth`, and otherwise a `ProcessingError` is
  raised, routed through `set_error` (at every depth) and re-raised. -/
def do_process_level (procsLen depth : ℕ) (catchErr : Exc → PyVal → Bool) (now : ℕ) :
    List Proc → Dict → PyVal → PState → DoResult × Dict × PState
  | [], ctx, ev, s =>
    match ev with
    | PyVal.genv subs =>
      if procsLen > depth then (DoResult.expand subs, ctx, s)
      else
        (DoResult.raised (Exc.procErr ev), ctx,
          set_error catchErr s ctx ev (some (Exc.procErr ev)) now)
    | PyVal.num _ =>
      (DoResult.raised (Exc.procErr ev), ctx,
        set_error catchErr s ctx ev (some (Exc.procErr ev)) now)
  | p :: rest, ctx, ev, s =>
    match p.run ctx ev with
    | (PyRet.pyRaise e, ctxm) =>
      if depth > 0 then (DoResult.raised e, ctxm, s)
      else (DoResult.raised e, ctxm, set_error catchErr s ctxm ev (some e) now)
    | (PyRet.pyNone, ctxm) =>
      if procsLen == depth + 1 then
        if p.isSink then (DoResult.consumed, ctxm, { s with evOut := s.evOut + 1 })
        else (DoResult.consumed, ctxm, { s with evDrop := s.evDrop + 1 })
      else (DoResult.consumed, ctxm, s)
    | (PyRet.pyVal v, ctxm) => do_process_level procsLen depth catchErr now rest ctxm v s

/-- `Pipeline._do_process(event, depth, context)`.  (A `depth` beyond the
chain would be a Python `IndexError`; no execution modelled here reaches
one.) -/
def do_process (procs : List (List Proc)) (depth : ℕ) (catchErr : Exc → PyVal → Bool)
    (now : ℕ) (ctx : Dict) (ev : PyVal) (s : PState) : DoResult × Dict × PState :=
  do_process_level procs.length depth catchErr now (procs.getD depth []) ctx ev s

/-- `Pipeline._generator_process(event, depth, context)` exactly as written:
each sub-event is walked at this depth with `context.copy()` (the mutated
copy that `_do_process` hands back is dropped, so sibling sub-events do not
see each other's context mutations), readiness is awaited before each
sub-event (no state change), and a propagating exception stops the loop.
When the walk of a sub-event returns a further generator, the source builds
the coroutine `self._generator_process(ngevent, depth+1, context)` **without
awaiting it**, so that dispatch never runs: the branch below deliberately has
no recursive call, mirroring the discarded coroutine.  The returned `Bool`
records whether an exception propagated out of the loop. -/
def generator_process (procs : List (List Proc)) (catchErr : Exc → PyVal → Bool)
    (now : ℕ) (depth : ℕ) : List ℕ → Dict → PState → Bool × PState
  | [], _ctx, s => (false, s)
  | g :: rest, ctx, s =>
    match do_process procs depth catchErr now ctx (PyVal.num g) s with
    | (DoResult.raised _, _ctxm, s1) => (true, s1)
    | (DoResult.expand _subs, _ctxm, s1) =>
      generator_process procs catchErr now depth rest ctx s1
    | (DoResult.consumed, _ctxm, s1) =>
      generator_process procs catchErr now depth rest ctx s1

/-- The context-materialisation step of `Pipeline.process`: with no caller
context the base context is copied; with a caller context, the base context
is merged in with `context.update(self._context)`, so base entries overwrite
the caller's. -/
def mergeContext (base : Dict) (supplied : Option Dict) : Dict :=
  match supplied with
  | none => base
  | some c => dictUpdate c base

/-- `Pipeline.process(event, context=None)` from the point where the
readiness wait has completed: bump `event.in`, materialise the context, walk
the chain at depth 0, and expand a returned generator at depth 1. -/
def process (procs : List (List Proc)) (catchErr : Exc → PyVal → Bool) (now : ℕ)
    (s : PState) (ev : PyVal) (ctxArg : Option Dict) : PState :=
  let s1 := { s with evIn := s.evIn + 1 }
  let ctx := mergeContext s.ctxBase ctxArg
  match do_process procs 0 catchErr now ctx ev s1 with
  | (DoResult.expand subs, ctxm, s2) =>
    (generator_process procs catchErr now 1 subs ctxm s2).2
  | (_, _, s2) => s2

/-- The sub-event dispatch as the specification words it: identical to
`generator_process` except that a generator returned by a sub-event **is**
dispatched (awaited) at the next depth before the loop resumes.  `fuel`
bounds the total number of sub-event dispatches (the Python recursion is
bounded because `_do_process` hands back a generator only while
`depth < len(self.Processors)` and the yielded sequences are finite); a
caller passes any bound large enough for its chain. -/
def generator_process_awaited (procs : List (List Proc)) (catchErr : Exc → PyVal → Bool)
    (now : ℕ) : ℕ → ℕ → List ℕ → Dict → PState → Bool × PState
  | 0, _, _, _ctx, s => (false, s)
  | _ + 1, _, [], _ctx, s => (false, s)
  | fuel + 1, depth, g :: rest, ctx, s =>
    match do_process procs depth catchErr now ctx (PyVal.num g) s with
    | (DoResult.raised _, _ctxm, s1) => (true, s1)
    | (DoResult.expand subs, _ctxm, s1) =>
      match generator_process_awaited procs catchErr now fuel (depth + 1) subs ctx s1 with
      | (true, s2) => (true, s2)
      | (false, s2) => generator_process_awaited procs catchErr now fuel depth rest ctx s2
    | (DoResult.consumed, _ctxm, s1) =>
      generator_process_awaited procs catchErr now fuel depth rest ctx s1

/-- `Pipeline.process` with the specified (awaited) sub-event dispatch;
`fuel` as in `generator_process_awaited`. -/
def process_awaited (fuel : ℕ) (procs : List (List Proc)) (catchErr : Exc → PyVal → Bool)
    (now : ℕ) (s : PState) (ev : PyVal) (ctxArg : Option Dict) : PState :=
  let s1 := { s with evIn := s.evIn + 1 }
  let ctx := mergeContext s.ctxBase ctxArg
  match do_process procs 0 catchErr now ctx ev s1 with
  | (DoResult.expand subs, ctxm, s2) =>
    (generator_process_awaited procs catchErr now fuel 1 subs ctxm s2).2
  | (_, _, s2) => s2

/-! ### Lookups (`bspump/mysql/lookup.py`, `bspump/elasticsearch/lookup.py`) -/

/-- The state of one lookup object: its `Cache` dict and the `hit` / `miss`
counters of its `CacheCounter`. -/
structure LookupState where
  cache : Dict
  cacheHit : ℕ
  cacheMiss : ℕ
deriving DecidableEq

/-- `MySQLLookup.__getitem__(key)`.  `find_one` stands for `self._find_one`
on the lookup's database.  On a cache hit the source binds
`value = self.Cache[key]`, bumps `hit` — and then returns `key`, not
`value`.  On a miss it fetches, caches, bumps `miss` and returns the fetched
value. -/
def mysql_getitem (find_one : ℕ → ℕ) (s : LookupState) (key : ℕ) : ℕ × LookupState :=
  match dictLookup s.cache key with
  | some _value => (key, { s with cacheHit := s.cacheHit + 1 })
  | none =>
    let v := find_one key
    (v, { s with cache := dictSet s.cache key v, cacheMiss := s.cacheMiss + 1 })

/-- `ElasticSearchLookup.__getitem__(key)`: same shape, but the cache hit
returns the cached value. -/
def es_getitem (find_one : ℕ → ℕ) (s : LookupState) (key : ℕ) : ℕ × LookupState :=
  match dictLookup s.cache key with
  | some value => (value, { s with cacheHit := s.cacheHit + 1 })
  | none =>
    let v := find_one key
    (v, { s with cache := dictSet s.cache key v, cacheMiss := s.cacheMiss + 1 })

/-! ### Service registry (`bspump/service.py`) -/

/-- The three registry namespaces of `BSPumpService`, each a dict from Id to
the registered object (objects are opaque handles here). -/
structure SvcState where
  Pipelines : Dict
  Connections : Dict
  Lookups : Dict
deriving DecidableEq

/-- `BSPumpService.add_pipeline`: a duplicate Id raises `RuntimeError` before
the assignment, so the mapping is unchanged (`Except.error`); otherwise the
pipeline is stored under its Id. -/
def add_pipeline (s : SvcState) (pid obj : ℕ) : Except Unit SvcState :=
  if dictHasKey s.Pipelines pid then Except.error ()
  else Except.ok { s with Pipelines := dictSet s.Pipelines pid obj }

/-- `BSPumpService.add_connection`: same pattern on the connection
namespace. -/
def add_connection (s : SvcState) (cid obj : ℕ) : Except Unit SvcState :=
  if dictHasKey s.Connections cid then Except.error ()
  else Except.ok { s with Connections := dictSet s.Connections cid obj }

/-- `BSPumpService.add_lookup`: same pattern on the lookup namespace.  (In
the source the duplicate branch crashes while formatting the message —
`lookup_id` is an undefined name there — so the raised exception is a
`NameError` rather than the intended `RuntimeError`; either way an exception
leaves the mapping unchanged, which is all `Except.error` records.) -/
def add_lookup (s : SvcState) (lid obj : ℕ) : Except Unit SvcState :=
  if dictHasKey s.Lookups lid then Except.error ()
  else Except.ok { s with Lookups := dictSet s.Lookups lid obj }

/-- An observable step of `BSPumpService.initialize`: a lookup's update task
(covering its initial `load()`) completing, or a pipeline's `start()`. -/
inductive InitEvt
  | lookupUpdated (id : ℕ)
  | pipelineStarted (id : ℕ)
deriving DecidableEq

/-- The trace of `BSPumpService.initialize`: `asyncio.wait` on the lookup
update tasks returns only once every task has completed (`lookupOrder` is
the completion order the loop happened to produce), and only then does the
loop over `self.Pipelines` start each pipeline. -/
def service_init_trace (lookupOrder pipelineOrder : List ℕ) : List InitEvt :=
  lookupOrder.map InitEvt.lookupUpdated ++ pipelineOrder.map InitEvt.pipelineStarted

/-! ### Helper lemmas about `_evaluate_ready` -/

theorem er_error (s : PState) : (evaluate_ready s).error = s.error := by
  simp only [evaluate_ready]
  split_ifs <;> rfl

theorem er_throttles (s : PState) : (evaluate_ready s).throttles = s.throttles := by
  simp only [evaluate_ready]
  split_ifs <;> rfl

theorem er_ctxBase (s : PState) : (evaluate_ready s).ctxBase = s.ctxBase := by
  simp only [evaluate_ready]
  split_ifs <;> rfl

theorem er_counters (s : PState) :
    (evaluate_ready s).evIn = s.evIn ∧ (evaluate_ready s).evOut = s.evOut ∧
    (evaluate_ready s).evDrop = s.evDrop ∧ (evaluate_ready s).cWarning = s.cWarning := by
  simp only [evaluate_ready]
  split_ifs <;> exact ⟨rfl, rfl, rfl, rfl⟩

/-- After `_evaluate_ready`, the ready flag equals the recomputed readiness,
whether or not an edge occurred. -/
theorem er_flag (s : PState) :
    (evaluate_ready s).readyFlag = (s.error.isNone && (s.throttles.card == 0)) := by
  simp only [evaluate_ready]
  split_ifs with h1 h2
  · exact eq_of_beq h1
  · exact h2.symm
  · exact (Bool.not_eq_true _).mp h2 |>.symm

/-- A state whose ready flag already matches the recomputed readiness is a
fixed point of `_evaluate_ready`. -/
theorem er_fixed (s : PState)
    (h : s.readyFlag = (s.error.isNone && (s.throttles.card == 0))) :
    evaluate_ready s = s := by
  simp only [evaluate_ready]
  rw [if_pos (beq_of_eq h)]

theorem er_idem (s : PState) :
    evaluate_ready (evaluate_ready s) = evaluate_ready s :=
  er_fixed _ (by rw [er_flag, er_error, er_throttles])

/-- The readiness expression of the source as a proposition. -/
theorem newReady_iff (s : PState) :
    (s.error.isNone && (s.throttles.card == 0)) = true ↔
      (s.error = none ∧ s.throttles = ∅) := by
  rw [Bool.and_eq_true, Option.isNone_iff_eq_none, beq_iff_eq, Finset.card_eq_zero]

theorem er_consistent (s : PState) : consistent (evaluate_ready s) := by
  unfold consistent
  rw [er_flag, er_error, er_throttles]
  exact newReady_iff s

/-- When `_evaluate_ready` flips the flag, the message it publishes is the
matching edge message, appended last. -/
theorem er_pubs_of_flag_ne (s : PState)
    (h : (evaluate_ready s).readyFlag ≠ s.readyFlag) :
    (evaluate_ready s).pubs = s.pubs ++
      [if (evaluate_ready s).readyFlag then PubMsg.ready else PubMsg.notReady] := by
  by_cases h1 : s.readyFlag = (s.error.isNone && (s.throttles.card == 0))
  · rw [er_fixed s h1] at h
    exact absurd rfl h
  · have hne : ¬ (s.readyFlag == (s.error.isNone && (s.throttles.card == 0))) = true := by
      simpa using h1
    by_cases h2 : (s.error.isNone && (s.throttles.card == 0)) = true
    · have he : evaluate_ready s =
          { s with readyFlag := true, pubs := s.pubs ++ [PubMsg.ready] } := by
        simp only [evaluate_ready]
        rw [if_neg hne, if_pos h2]
      rw [he]
      simp
    · have he : evaluate_ready s =
          { s with readyFlag := false, pubs := s.pubs ++ [PubMsg.notReady] } := by
        simp only [evaluate_ready]
        rw [if_neg hne, if_neg h2]
      rw [he]
      simp

theorem er_exists_pub (w : PState)
    (hw : (evaluate_ready w).readyFlag ≠ w.readyFlag) :
    ∃ l, (evaluate_ready w).pubs =
      l ++ [if (evaluate_ready w).readyFlag then PubMsg.ready else PubMsg.notReady] :=
  ⟨w.pubs, er_pubs_of_flag_ne w hw⟩

/-! ### Consistency is established and then preserved -/

theorem set_error_consistent (catchErr : Exc → PyVal → Bool) (s : PState)
    (ctx : Dict) (ev : PyVal) (exc : Option Exc) (now : ℕ) (h : consistent s) :
    consistent (set_error catchErr s ctx ev exc now) := by
  cases exc with
  | none =>
    simp only [set_error]
    split_ifs with h1
    · exact er_consistent _
    · exact h
  | some e =>
    simp only [set_error]
    split_ifs with h1
    · exact er_consistent _
    · unfold consistent at *
      simpa using h

theorem throttle_consistent (s : PState) (who : ℕ) (en : Bool) (t : PState)
    (h : throttle s who en = Except.ok t) : consistent t := by
  unfold throttle at h
  split_ifs at h with h1 h2
  · cases h
    exact er_consistent _
  · cases h
    exact er_consistent _

theorem runOp_consistent (catchErr : Exc → PyVal → Bool) (s : PState) (op : Op)
    (h : consistent s) : consistent (runOp catchErr s op) := by
  cases op with
  | thr who en =>
    simp only [runOp]
    rcases ht : throttle s who en with u | t
    · exact h
    · exact throttle_consistent s who en t ht
  | err ctx ev exc now => exact set_error_consistent catchErr s ctx ev exc now h

theorem runOps_consistent (catchErr : Exc → PyVal → Bool) (s : PState) (ops : List Op)
    (h : consistent s) : consistent (runOps catchErr s ops) := by
  induction ops generalizing s with
  | nil => exact h
  | cons op rest ih => exact ih (runOp catchErr s op) (runOp_consistent catchErr s op h)

/-- Any single call that flips the ready flag publishes the matching edge
message as its last publication. -/
theorem runOp_flag_pub (catchErr : Exc → PyVal → Bool) (t : PState) (op : Op)
    (h : (runOp catchErr t op).readyFlag ≠ t.readyFlag) :
    ∃ l, (runOp catchErr t op).pubs =
      l ++ [if (runOp catchErr t op).readyFlag then PubMsg.ready else PubMsg.notReady] := by
  cases op with
  | thr who en =>
    cases en with
    | true => exact er_exists_pub _ h
    | false =>
      by_cases hm : who ∈ t.throttles
      · have hred : runOp catchErr t (Op.thr who false) =
            evaluate_ready { t with throttles := t.throttles.erase who } := by
          simp [runOp, throttle, hm]
        rw [hred] at h ⊢
        exact er_exists_pub _ h
      · have hred : runOp catchErr t (Op.thr who false) = t := by
          simp [runOp, throttle, hm]
        rw [hred] at h
        exact absurd rfl h
  | err ctx ev exc now =>
    cases exc with
    | none =>
      by_cases h1 : t.error.isSome
      · have hred : runOp catchErr t (Op.err ctx ev none now) =
            evaluate_ready { t with error := none, pubs := t.pubs ++ [PubMsg.clearError] } := by
          simp [runOp, set_error, h1]
        rw [hred] at h ⊢
        exact er_exists_pub _ h
      · have hred : runOp catchErr t (Op.err ctx ev none now) = t := by
          simp [runOp, set_error, h1]
        rw [hred] at h
        exact absurd rfl h
    | some e =>
      by_cases h1 : catchErr e ev
      · have hred : runOp catchErr t (Op.err ctx ev (some e) now) =
            evaluate_ready { t with error := some (ctx, ev, e, now),
                                    pubs := t.pubs ++ [PubMsg.error] } := by
          simp [runOp, set_error, h1]
        rw [hred] at h ⊢
        exact er_exists_pub _ h
      · have hred : runOp catchErr t (Op.err ctx ev (some e) now) =
            { t with cWarning := t.cWarning + 1, pubs := t.pubs ++ [PubMsg.warning] } := by
          simp [runOp, set_error, h1]
        rw [hred] at h
        exact absurd rfl h

/-! ### Small state-machine computation lemmas -/

theorem update_throttles_self (u : PState) : { u with throttles := u.throttles } = u := rfl

theorem runOp_enable_state (catchErr : Exc → PyVal → Bool) (u : PState) (x : ℕ) :
    runOp catchErr u (Op.thr x true) =
      evaluate_ready { u with throttles := insert x u.throttles } := rfl

theorem runOp_disable_state (catchErr : Exc → PyVal → Bool) (u : PState) (x : ℕ)
    (hu : x ∈ u.throttles) :
    runOp catchErr u (Op.thr x false) =
      evaluate_ready { u with throttles := u.throttles.erase x } := by
  simp [runOp, throttle, hu]

theorem throttle_enable_of_mem (u : PState) (who : ℕ) (hm : who ∈ u.throttles)
    (hfix : evaluate_ready u = u) : throttle u who true = Except.ok u := by
  have h1 : insert who u.throttles = u.throttles := Finset.insert_eq_self.mpr hm
  show Except.ok (evaluate_ready { u with throttles := insert who u.throttles }) = Except.ok u
  rw [h1, update_throttles_self, hfix]

/-! ### Claims about the readiness state machine (C1, C5, C6) -/

/-- Claim C1, as stated, is false: a freshly constructed pipeline has a clean
error state and an empty throttle set, and yet `is_ready()` is `false`
(`__init__` explicitly clears the `_ready` event and nothing re-evaluates it
until a call that reaches `_evaluate_ready`).  Concretely, after the single
call `set_error(ctx, ev, None)` on a fresh pipeline — a no-op because no
error is set — `is_ready()` is still `false` while the error state is clean
and the throttle set empty. -/
theorem C1_counterexample :
    ¬ (is_ready (runOps catchT init0 [Op.err [] (PyVal.num 0) none 0]) = true ↔
       ((runOps catchT init0 [Op.err [] (PyVal.num 0) none 0]).error = none ∧
        (runOps catchT init0 [Op.err [] (PyVal.num 0) none 0]).throttles = ∅)) := by
  decide

/-- Claim C1 (amended): starting from any state whose ready flag agrees with
the readiness predicate — as holds after any call that runs
`_evaluate_ready`, though not in a freshly constructed pipeline — every
sequence of `throttle` and `set_error` calls preserves the agreement, so
`is_ready()` is `true` iff the error state is clean and the throttle set
empty; and whenever a single call flips the ready flag, the matching
`bspump.pipeline.ready!` / `bspump.pipeline.not_ready!` message is the last
message it publishes. -/
theorem C1_amended (catchErr : Exc → PyVal → Bool) (s : PState) (ops : List Op)
    (h : consistent s) :
    (is_ready (runOps catchErr s ops) = true ↔
      ((runOps catchErr s ops).error = none ∧ (runOps catchErr s ops).throttles = ∅)) ∧
    (∀ t op, (runOp catchErr t op).readyFlag ≠ t.readyFlag →
      ∃ l, (runOp catchErr t op).pubs =
        l ++ [if (runOp catchErr t op).readyFlag then PubMsg.ready else PubMsg.notReady]) :=
  ⟨runOps_consistent catchErr s ops h,
   fun t op ht => runOp_flag_pub catchErr t op ht⟩

/-- Witness for C1 (amended) at a concrete consistent state and call list. -/
theorem C1_amended_witness :
    consistent (evaluate_ready init0) ∧
    (is_ready (runOps catchT (evaluate_ready init0) [Op.thr 0 true]) = true ↔
      ((runOps catchT (evaluate_ready init0) [Op.thr 0 true]).error = none ∧
       (runOps catchT (evaluate_ready init0) [Op.thr 0 true]).throttles = ∅)) :=
  ⟨by decide, (C1_amended catchT (evaluate_ready init0) [Op.thr 0 true] (by decide)).1⟩

theorem runPair_flag (catchErr : Exc → PyVal → Bool) (s : PState) (x : ℕ)
    (he : s.error = none) (hx : x ∉ s.throttles) :
    (runOps catchErr s [Op.thr x true, Op.thr x false]).readyFlag =
      (s.throttles.card == 0) := by
  have e0 : runOps catchErr s [Op.thr x true, Op.thr x false] =
      runOp catchErr (runOp catchErr s (Op.thr x true)) (Op.thr x false) := rfl
  rw [e0, runOp_enable_state, runOp_disable_state _ _ _
    (by rw [er_throttles]; exact Finset.mem_insert_self x _)]
  simp only [er_flag, er_error, er_throttles]
  simp [Finset.erase_insert hx, he]

theorem runTriple_flag (catchErr : Exc → PyVal → Bool) (s : PState) (x : ℕ)
    (he : s.error = none) (hx : x ∉ s.throttles) :
    (runOps catchErr s [Op.thr x true, Op.thr x true, Op.thr x false]).readyFlag =
      (s.throttles.card == 0) := by
  have e0 : runOps catchErr s [Op.thr x true, Op.thr x true, Op.thr x false] =
      runOp catchErr (runOp catchErr (runOp catchErr s (Op.thr x true)) (Op.thr x true))
        (Op.thr x false) := rfl
  rw [e0, runOp_enable_state, runOp_enable_state, runOp_disable_state _ _ _
    (by rw [er_throttles]; exact Finset.mem_insert_self x _)]
  simp only [er_flag, er_error, er_throttles]
  simp [Finset.insert_idem, Finset.erase_insert hx, he]

/-- The boolean `is_ready` of a state that is consistent and error-clean
equals the emptiness test of its throttle set. -/
theorem consistent_flag_eq (s : PState) (hc : consistent s) (he : s.error = none) :
    s.readyFlag = (s.throttles.card == 0) := by
  by_cases hts : s.throttles = ∅
  · have h1 := hc.mpr ⟨he, hts⟩
    simp [h1, hts]
  · have hne : s.readyFlag = false :=
      (Bool.not_eq_true _).mp (fun hr => hts (hc.mp hr).2)
    have h0 : s.throttles.card ≠ 0 := fun hcc => hts (Finset.card_eq_zero.mp hcc)
    rw [hne]
    exact (beq_eq_false_iff_ne.mpr h0).symm

/-- Claim C5, as stated, is false in its second half: on a ready pipeline with
a clean error state and an empty throttle set, `throttle(x, True)` twice
followed by `throttle(x, False)` once leaves the pipeline **ready** — the
throttle set is a plain Python `set`, so the second `add` is absorbed — while
the claim demands it be left not ready. -/
theorem C5_counterexample :
    (evaluate_ready init0).error = none ∧
    0 ∉ (evaluate_ready init0).throttles ∧
    is_ready (runOps catchT (evaluate_ready init0)
      [Op.thr 0 true, Op.thr 0 true, Op.thr 0 false]) = true := by
  decide

/-- Claim C5 (amended): for every consistent pipeline state with a clean
error state and a token `x` not currently throttling it, both
`throttle(x, True); throttle(x, False)` and
`throttle(x, True); throttle(x, True); throttle(x, False)` are no-ops on
readiness: the set-based throttle bookkeeping absorbs the repeated enable,
so neither pattern changes `is_ready()`. -/
theorem C5_amended (catchErr : Exc → PyVal → Bool) (s : PState) (x : ℕ)
    (hc : consistent s) (he : s.error = none) (hx : x ∉ s.throttles) :
    is_ready (runOps catchErr s [Op.thr x true, Op.thr x false]) = is_ready s ∧
    is_ready (runOps catchErr s [Op.thr x true, Op.thr x true, Op.thr x false]) =
      is_ready s := by
  have hflag := consistent_flag_eq s hc he
  constructor
  · show (runOps catchErr s [Op.thr x true, Op.thr x false]).readyFlag = s.readyFlag
    rw [runPair_flag catchErr s x he hx, hflag]
  · show (runOps catchErr s
      [Op.thr x true, Op.thr x true, Op.thr x false]).readyFlag = s.readyFlag
    rw [runTriple_flag catchErr s x he hx, hflag]

/-- Witness for C5 (amended) on a ready pipeline and the token `0`. -/
theorem C5_amended_witness :
    is_ready (runOps catchT (evaluate_ready init0) [Op.thr 0 true, Op.thr 0 false]) =
      is_ready (evaluate_ready init0) ∧
    is_ready (runOps catchT (evaluate_ready init0)
      [Op.thr 0 true, Op.thr 0 true, Op.thr 0 false]) = is_ready (evaluate_ready init0) :=
  C5_amended catchT (evaluate_ready init0) 0 (by decide) (by decide) (by decide)

/-- Claim C6, as stated, is false in its removal half: `throttle(who, False)`
when `who` is not in the throttle set does **not** succeed silently — the
source calls `set.remove`, which raises `KeyError`.  Concretely, on a ready
pipeline with an empty throttle set, disabling the token `0` raises. -/
theorem C6_counterexample :
    0 ∉ (evaluate_ready init0).throttles ∧
    throttle (evaluate_ready init0) 0 false = Except.error () := by
  exact ⟨by decide, rfl⟩

/-- Claim C6 (amended): `throttle(who, True)` is idempotent — a second enable
returns exactly the state of the first, with no further publications — but
disabling is not an idempotent remove: two consecutive
`throttle(who, False)` calls always end in a `KeyError` (the second remove
finds the token absent), and a single disable of an absent token raises
`KeyError` with the pipeline state unchanged. -/
theorem C6_amended (s : PState) (who : ℕ) :
    (throttle s who true).bind (fun t => throttle t who true) = throttle s who true ∧
    (throttle s who false).bind (fun t => throttle t who false) = Except.error () ∧
    (who ∉ s.throttles → throttle s who false = Except.error ()) := by
  refine ⟨?_, ?_, ?_⟩
  · have hok : throttle s who true =
        Except.ok (evaluate_ready { s with throttles := insert who s.throttles }) := rfl
    rw [hok]
    show throttle (evaluate_ready { s with throttles := insert who s.throttles }) who true =
      Except.ok (evaluate_ready { s with throttles := insert who s.throttles })
    exact throttle_enable_of_mem _ who
      (by rw [er_throttles]; exact Finset.mem_insert_self who _) (er_idem _)
  · by_cases hm : who ∈ s.throttles
    · have hok : throttle s who false =
          Except.ok (evaluate_ready { s with throttles := s.throttles.erase who }) := by
        simp [throttle, hm]
      rw [hok]
      show throttle (evaluate_ready { s with throttles := s.throttles.erase who }) who false =
        Except.error ()
      have hnm : who ∉ (evaluate_ready
          { s with throttles := s.throttles.erase who }).throttles := by
        rw [er_throttles]
        exact Finset.not_mem_erase who _
      simp [throttle, hnm]
    · have herr : throttle s who false = Except.error () := by
        simp [throttle, hm]
      rw [herr]
      rfl
  · intro hm
    simp [throttle, hm]

/-- Witness for C6 (amended) on a ready pipeline and the absent token `5`. -/
theorem C6_amended_witness :
    ((throttle (evaluate_ready init0) 5 true).bind (fun t => throttle t 5 true) =
      throttle (evaluate_ready init0) 5 true) ∧
    ((throttle (evaluate_ready init0) 5 false).bind (fun t => throttle t 5 false) =
      Except.error ()) ∧
    throttle (evaluate_ready init0) 5 false = Except.error () :=
  ⟨(C6_amended (evaluate_ready init0) 5).1, (C6_amended (evaluate_ready init0) 5).2.1,
   (C6_amended (evaluate_ready init0) 5).2.2 (by decide)⟩

/-! ### Concrete chains used by the counter and generator claims -/

/-- A processor that drops every event (`process` returns `None`). -/
def dropProc : Proc := { isSink := false, run := fun c _ => (PyRet.pyNone, c) }

/-- A sink: consumes every event. -/
def sinkProc : Proc := { isSink := true, run := fun c _ => (PyRet.pyNone, c) }

/-- A generator-style processor returning a generator that yields `10`. -/
def genProc1 : Proc := { isSink := false, run := fun c _ => (PyRet.pyVal (PyVal.genv [10]), c) }

/-- A generator-style processor returning a generator that yields `20`. -/
def genProc2 : Proc := { isSink := false, run := fun c _ => (PyRet.pyVal (PyVal.genv [20]), c) }

/-- A processor that raises `Exc.user 7` on every event. -/
def raiseProc : Proc := { isSink := false, run := fun c _ => (PyRet.pyRaise (Exc.user 7), c) }

/-- A two-level chain whose first depth-0 processor drops every event. -/
def procsC2 : List (List Proc) := [[dropProc, genProc1], [sinkProc]]

/-- A three-level chain: a generator, then a generator, then a sink. -/
def procsC3 : List (List Proc) := [[genProc1], [genProc2], [sinkProc]]

/-! ### Claims about the chain walker (C2, C4) -/

/-- Claim C2, as stated, is false: in the two-level chain `procsC2` the
depth-0 processor `dropProc` returns `None` for the incoming event, the
event is consumed — and **neither** `event.drop` nor `event.out` is
incremented, because `_do_process` touches the counters only when
`len(self.Processors) == depth + 1`, i.e. at the last chain level.  The
claim demands `event.drop = 1` here. -/
theorem C2_counterexample :
    (process procsC2 catchT 0 (evaluate_ready init0) (PyVal.num 5) none).evDrop = 0 ∧
    (process procsC2 catchT 0 (evaluate_ready init0) (PyVal.num 5) none).evOut = 0 ∧
    (process procsC2 catchT 0 (evaluate_ready init0) (PyVal.num 5) none).evIn = 1 := by
  decide

/-- Claim C2 (amended): when a processor invocation returns `None` the event
is consumed, and the counters move only at the last chain level: there,
`event.out` is incremented when the processor is a Sink and `event.drop`
otherwise; at any depth before the last chain level the pipeline state is
left entirely unchanged — in particular `event.drop` is **not**
incremented. -/
theorem C2_amended (procsLen depth : ℕ) (catchErr : Exc → PyVal → Bool) (now : ℕ)
    (p : Proc) (rest : List Proc) (ctx : Dict) (ev : PyVal) (s : PState)
    (h : (p.run ctx ev).1 = PyRet.pyNone) :
    (do_process_level procsLen depth catchErr now (p :: rest) ctx ev s).1 =
      DoResult.consumed ∧
    (procsLen = depth + 1 → p.isSink = true →
      (do_process_level procsLen depth catchErr now (p :: rest) ctx ev s).2.2 =
        { s with evOut := s.evOut + 1 }) ∧
    (procsLen = depth + 1 → p.isSink = false →
      (do_process_level procsLen depth catchErr now (p :: rest) ctx ev s).2.2 =
        { s with evDrop := s.evDrop + 1 }) ∧
    (procsLen ≠ depth + 1 →
      (do_process_level procsLen depth catchErr now (p :: rest) ctx ev s).2.2 = s) := by
  have hpair : p.run ctx ev = (PyRet.pyNone, (p.run ctx ev).2) := by
    rw [← h]
  have hred : do_process_level procsLen depth catchErr now (p :: rest) ctx ev s =
      (if procsLen == depth + 1 then
        if p.isSink then
          (DoResult.consumed, (p.run ctx ev).2, { s with evOut := s.evOut + 1 })
        else
          (DoResult.consumed, (p.run ctx ev).2, { s with evDrop := s.evDrop + 1 })
      else (DoResult.consumed, (p.run ctx ev).2, s)) := by
    conv_lhs => rw [do_process_level, hpair]
  refine ⟨?_, ?_, ?_, ?_⟩
  · rw [hred]
    split_ifs <;> rfl
  · intro h1 h2
    rw [hred]
    simp [h1, h2]
  · intro h1 h2
    rw [hred]
    simp [h1, h2]
  · intro h1
    rw [hred]
    simp [h1]

/-- Witness for C2 (amended): the depth-0 drop in `procsC2` consumes the
event and touches nothing. -/
theorem C2_amended_witness :
    (do_process_level 2 0 catchT 0 [dropProc, genProc1] [] (PyVal.num 5)
      (evaluate_ready init0)).1 = DoResult.consumed ∧
    (do_process_level 2 0 catchT 0 [dropProc, genProc1] [] (PyVal.num 5)
      (evaluate_ready init0)).2.2 = evaluate_ready init0 :=
  ⟨(C2_amended 2 0 catchT 0 dropProc [genProc1] [] (PyVal.num 5)
      (evaluate_ready init0) rfl).1,
   (C2_amended 2 0 catchT 0 dropProc [genProc1] [] (PyVal.num 5)
      (evaluate_ready init0) rfl).2.2.2 (by decide)⟩

theorem er_pubs_no_edge (u : PState)
    (h : u.readyFlag = (u.error.isNone && (u.throttles.card == 0))) :
    (evaluate_ready u).pubs = u.pubs := by
  rw [er_fixed u h]

theorem er_pubs_to_notReady (u : PState) (hflag : u.readyFlag = true)
    (hnr : (u.error.isNone && (u.throttles.card == 0)) = false) :
    (evaluate_ready u).pubs = u.pubs ++ [PubMsg.notReady] := by
  simp only [evaluate_ready]
  rw [hflag, hnr]
  rfl

/-- Claim C4: an exception raised by a depth-0 processor invocation is routed
through `set_error`.  When `catch_error` returns `False` (soft error) the
`warning` counter is incremented by one, `bspump.pipeline.warning!` is
published, the error state stays clean and the ready flag is untouched, so
the pipeline keeps accepting the next event.  When `catch_error` returns
`True` (hard error) the error tuple is stored, `bspump.pipeline.error!` is
published and the pipeline becomes not ready (with the `not_ready!` edge
message when it was ready before).  In both cases the exception continues to
propagate to the caller of `process`. -/
theorem C4_theorem (procsLen : ℕ) (catchErr : Exc → PyVal → Bool) (now : ℕ)
    (p : Proc) (rest : List Proc) (ctx : Dict) (ev : PyVal) (s : PState) (e : Exc)
    (hrun : (p.run ctx ev).1 = PyRet.pyRaise e)
    (hclean : s.error = none) :
    (do_process_level procsLen 0 catchErr now (p :: rest) ctx ev s).1 =
      DoResult.raised e ∧
    (catchErr e ev = false →
      (do_process_level procsLen 0 catchErr now (p :: rest) ctx ev s).2.2.error = none ∧
      (do_process_level procsLen 0 catchErr now (p :: rest) ctx ev s).2.2.cWarning =
        s.cWarning + 1 ∧
      (do_process_level procsLen 0 catchErr now (p :: rest) ctx ev s).2.2.pubs =
        s.pubs ++ [PubMsg.warning] ∧
      is_ready (do_process_level procsLen 0 catchErr now (p :: rest) ctx ev s).2.2 =
        is_ready s) ∧
    (catchErr e ev = true →
      (do_process_level procsLen 0 catchErr now (p :: rest) ctx ev s).2.2.error =
        some ((p.run ctx ev).2, ev, e, now) ∧
      is_ready (do_process_level procsLen 0 catchErr now (p :: rest) ctx ev s).2.2 =
        false ∧
      (do_process_level procsLen 0 catchErr now (p :: rest) ctx ev s).2.2.pubs =
        s.pubs ++ [PubMsg.error] ++
          (if s.readyFlag then [PubMsg.notReady] else [])) := by
  have hpair : p.run ctx ev = (PyRet.pyRaise e, (p.run ctx ev).2) := by
    rw [← hrun]
  have hred : do_process_level procsLen 0 catchErr now (p :: rest) ctx ev s =
      (DoResult.raised e, (p.run ctx ev).2,
        set_error catchErr s (p.run ctx ev).2 ev (some e) now) := by
    conv_lhs => rw [do_process_level, hpair]
    rfl
  refine ⟨by rw [hred], ?_, ?_⟩
  · intro hcf
    rw [hred]
    simp [set_error, hcf, is_ready, hclean]
  · intro hcf
    rw [hred]
    have hse : set_error catchErr s ((p.run ctx ev).2) ev (some e) now =
        evaluate_ready { s with error := some ((p.run ctx ev).2, ev, e, now),
                                pubs := s.pubs ++ [PubMsg.error] } := by
      simp [set_error, hcf]
    rw [hse]
    refine ⟨by rw [er_error], ?_, ?_⟩
    · show (evaluate_ready _).readyFlag = false
      rw [er_flag]
      rfl
    · cases hb : s.readyFlag with
      | false =>
        rw [er_pubs_no_edge _ (by simp [hb])]
        simp [hb]
      | true =>
        rw [er_pubs_to_notReady _ (by simp [hb]) (by simp)]
        simp [hb]

/-- Witness for C4: a hard error raised at depth 0 on a ready pipeline makes
the pipeline not ready. -/
theorem C4_witness :
    (do_process_level 1 0 catchT 0 [raiseProc] [] (PyVal.num 1)
      (evaluate_ready init0)).1 = DoResult.raised (Exc.user 7) ∧
    is_ready (do_process_level 1 0 catchT 0 [raiseProc] [] (PyVal.num 1)
      (evaluate_ready init0)).2.2 = false :=
  ⟨(C4_theorem 1 catchT 0 raiseProc [] [] (PyVal.num 1) (evaluate_ready init0)
      (Exc.user 7) rfl (by decide)).1,
   ((C4_theorem 1 catchT 0 raiseProc [] [] (PyVal.num 1) (evaluate_ready init0)
      (Exc.user 7) rfl (by decide)).2.2 rfl).2.1⟩

/-- Claim C3 evaluated at the failing input.  In the three-level chain
`procsC3`, `process` expands the depth-0 generator and walks its sub-event at
depth 1, where a second generator is returned; the source then builds the
`self._generator_process(ngevent, depth+1, context)` coroutine **without
awaiting it**, so the depth-2 sub-event is never walked: the sink is never
invoked (`event.out` stays `0`) even though the event entered the pipeline
and no error was recorded.  The same input under the awaited dispatch that
the specification prescribes drives the sub-event to the sink
(`event.out = 1`). -/
theorem C3_code_evaluated :
    (process procsC3 catchT 0 (evaluate_ready init0) (PyVal.num 1) none).evOut = 0 ∧
    (process procsC3 catchT 0 (evaluate_ready init0) (PyVal.num 1) none).evDrop = 0 ∧
    (process procsC3 catchT 0 (evaluate_ready init0) (PyVal.num 1) none).evIn = 1 ∧
    (process procsC3 catchT 0 (evaluate_ready init0) (PyVal.num 1) none).error = none ∧
    (process_awaited 9 procsC3 catchT 0 (evaluate_ready init0) (PyVal.num 1) none).evOut
      = 1 := by
  decide

/-! ### Claims about the service registry (C7, C9) -/

/-- Claim C7: in each of the three namespaces independently, registering an
object under an Id that is already registered in *that* namespace raises
(`Except.error`, the raise happening before any assignment, so the registry
mapping is unchanged) — whatever the other two namespaces hold. -/
theorem C7_theorem (s : SvcState) (pid pobj cid cobj lid lobj : ℕ) :
    (dictHasKey s.Pipelines pid = true →
      add_pipeline s pid pobj = Except.error ()) ∧
    (dictHasKey s.Connections cid = true →
      add_connection s cid cobj = Except.error ()) ∧
    (dictHasKey s.Lookups lid = true →
      add_lookup s lid lobj = Except.error ()) := by
  refine ⟨?_, ?_, ?_⟩
  · intro hp
    simp [add_pipeline, hp]
  · intro hc
    simp [add_connection, hc]
  · intro hl
    simp [add_lookup, hl]

/-- Witness for C7: three registries, each holding a duplicate in exactly one
namespace while the other two namespaces are empty. -/
theorem C7_witness :
    add_pipeline ⟨[(1, 0)], [], []⟩ 1 9 = Except.error () ∧
    add_connection ⟨[], [(2, 0)], []⟩ 2 9 = Except.error () ∧
    add_lookup ⟨[], [], [(3, 0)]⟩ 3 9 = Except.error () :=
  ⟨(C7_theorem ⟨[(1, 0)], [], []⟩ 1 9 0 0 0 0).1 (by decide),
   (C7_theorem ⟨[], [(2, 0)], []⟩ 0 0 2 9 0 0).2.1 (by decide),
   (C7_theorem ⟨[], [], [(3, 0)]⟩ 0 0 0 0 3 9).2.2 (by decide)⟩

/-- Claim C9: in the trace of `BSPumpService.initialize`, every completion of
a lookup's update task (covering its initial `load()`) precedes every
pipeline `start()`: `asyncio.wait` returns only when all the update tasks are
done, and the pipelines are started only after it returns. -/
theorem C9_theorem (lookups pipelines : List ℕ) (i j p l : ℕ)
    (hp : (service_init_trace lookups pipelines).get? i =
      some (InitEvt.pipelineStarted p))
    (hl : (service_init_trace lookups pipelines).get? j =
      some (InitEvt.lookupUpdated l)) :
    j < i := by
  have hmaplen : (lookups.map InitEvt.lookupUpdated).length = lookups.length :=
    List.length_map _ _
  have hj : j < lookups.length := by
    by_contra hge
    push_neg at hge
    rw [service_init_trace, List.get?_append_right (by rw [hmaplen]; exact hge)] at hl
    rw [List.get?_map] at hl
    rcases Option.map_eq_some'.mp hl with ⟨a, _, hak⟩
    exact InitEvt.noConfusion hak
  have hi : lookups.length ≤ i := by
    by_contra hlt
    push_neg at hlt
    rw [service_init_trace, List.get?_append (by rw [hmaplen]; exact hlt)] at hp
    rw [List.get?_map] at hp
    rcases Option.map_eq_some'.mp hp with ⟨a, _, hak⟩
    exact InitEvt.noConfusion hak
  exact lt_of_lt_of_le hj hi

/-- Witness for C9 on one lookup and one pipeline. -/
theorem C9_witness :
    (service_init_trace [5] [7]).get? 1 = some (InitEvt.pipelineStarted 7) ∧
    (service_init_trace [5] [7]).get? 0 = some (InitEvt.lookupUpdated 5) ∧
    (0 : ℕ) < 1 :=
  ⟨by decide, by decide, C9_theorem [5] [7] 1 0 7 5 (by decide) (by decide)⟩

/-! ### Claim about the lookup cache (C8) -/

/-- Claim C8 evaluated at the failing input.  With `42` cached under key `1`,
`MySQLLookup.__getitem__(1)` bumps the `hit` counter but returns `1` — the
**key**, not the cached value `42` that the claim requires (`value` is bound
and then unused in the source); `ElasticSearchLookup.__getitem__` returns the
cached `42`.  On a miss, `MySQLLookup.__getitem__` does behave as claimed:
it fetches, caches the fetched value, bumps `miss` and returns it. -/
theorem C8_code_evaluated :
    (mysql_getitem (fun _ => 0) ⟨[(1, 42)], 0, 0⟩ 1).1 = 1 ∧
    (mysql_getitem (fun _ => 0) ⟨[(1, 42)], 0, 0⟩ 1).1 ≠ 42 ∧
    (mysql_getitem (fun _ => 0) ⟨[(1, 42)], 0, 0⟩ 1).2.cacheHit = 1 ∧
    (es_getitem (fun _ => 0) ⟨[(1, 42)], 0, 0⟩ 1).1 = 42 ∧
    (mysql_getitem (fun k => k + 50) ⟨[], 0, 0⟩ 1).1 = 51 ∧
    (mysql_getitem (fun k => k + 50) ⟨[], 0, 0⟩ 1).2.cacheMiss = 1 ∧
    dictLookup (mysql_getitem (fun k => k + 50) ⟨[], 0, 0⟩ 1).2.cache 1 = some 51 := by
  decide

/-! ### Claim about the context merge of `process` (C10) -/

theorem dictLookup_append_of_all_fail (l1 l2 : Dict) (k : ℕ)
    (h : ∀ pr ∈ l1, (pr.1 == k) = false) :
    dictLookup (l1 ++ l2) k = dictLookup l2 k := by
  induction l1 with
  | nil => rfl
  | cons a t ih =>
    have ha := h a (List.mem_cons_self a t)
    show dictLookup (a :: (t ++ l2)) k = dictLookup l2 k
    unfold dictLookup
    rw [List.find?_cons_of_neg _ (by simp [ha])]
    exact ih (fun pr hpr => h pr (List.mem_cons_of_mem a hpr))

/-- `context.update(self._context)`: for a key bound in the base context, the
merged context carries the base context's value. -/
theorem mergeContext_base_wins (base c : Dict) (k : ℕ)
    (h2 : dictHasKey base k = true) :
    dictLookup (mergeContext base (some c)) k = dictLookup base k := by
  show dictLookup (dictUpdate c base) k = dictLookup base k
  unfold dictUpdate
  apply dictLookup_append_of_all_fail
  intro pr hpr
  rcases List.mem_filter.mp hpr with ⟨_, hkeep⟩
  cases hpk : (pr.1 == k) with
  | false => rfl
  | true =>
    rw [eq_of_beq hpk, h2] at hkeep
    exact absurd hkeep (by simp)

theorem set_error_ctxBase (catchErr : Exc → PyVal → Bool) (s : PState)
    (ctx : Dict) (ev : PyVal) (exc : Option Exc) (now : ℕ) :
    (set_error catchErr s ctx ev exc now).ctxBase = s.ctxBase := by
  cases exc with
  | none =>
    simp only [set_error]
    split_ifs
    · rw [er_ctxBase]
    · rfl
  | some e =>
    simp only [set_error]
    split_ifs
    · rw [er_ctxBase]
    · rfl

theorem do_process_level_ctxBase (procsLen depth : ℕ) (catchErr : Exc → PyVal → Bool)
    (now : ℕ) (ps : List Proc) : ∀ ctx ev s,
    (do_process_level procsLen depth catchErr now ps ctx ev s).2.2.ctxBase = s.ctxBase := by
  induction ps with
  | nil =>
    intro ctx ev s
    cases ev with
    | genv subs =>
      simp only [do_process_level]
      split_ifs
      · rfl
      · exact set_error_ctxBase catchErr s ctx _ _ now
    | num n => exact set_error_ctxBase catchErr s ctx _ _ now
  | cons p rest ih =>
    intro ctx ev s
    simp only [do_process_level]
    split
    · split_ifs
      · rfl
      · exact set_error_ctxBase catchErr s _ ev _ now
    · split_ifs <;> rfl
    · exact ih _ _ s

theorem do_process_ctxBase (procs : List (List Proc)) (depth : ℕ)
    (catchErr : Exc → PyVal → Bool) (now : ℕ) (ctx : Dict) (ev : PyVal) (s : PState) :
    (do_process procs depth catchErr now ctx ev s).2.2.ctxBase = s.ctxBase :=
  do_process_level_ctxBase procs.length depth catchErr now (procs.getD depth []) ctx ev s

theorem generator_process_ctxBase (procs : List (List Proc))
    (catchErr : Exc → PyVal → Bool) (now depth : ℕ) (subs : List ℕ) :
    ∀ ctx s, (generator_process procs catchErr now depth subs ctx s).2.ctxBase
      = s.ctxBase := by
  induction subs with
  | nil =>
    intro ctx s
    rfl
  | cons g rest ih =>
    intro ctx s
    simp only [generator_process]
    split
    all_goals rename_i heq
    · have h1 := do_process_ctxBase procs depth catchErr now ctx (PyVal.num g) s
      rw [heq] at h1
      exact h1
    · rw [ih ctx _]
      have h1 := do_process_ctxBase procs depth catchErr now ctx (PyVal.num g) s
      rw [heq] at h1
      exact h1
    · rw [ih ctx _]
      have h1 := do_process_ctxBase procs depth catchErr now ctx (PyVal.num g) s
      rw [heq] at h1
      exact h1

theorem process_ctxBase (procs : List (List Proc)) (catchErr : Exc → PyVal → Bool)
    (now : ℕ) (s : PState) (ev : PyVal) (ctxArg : Option Dict) :
    (process procs catchErr now s ev ctxArg).ctxBase = s.ctxBase := by
  simp only [process]
  split
  all_goals rename_i heq
  · rw [generator_process_ctxBase procs catchErr now 1 _ _ _]
    have h1 := do_process_ctxBase procs 0 catchErr now
      (mergeContext s.ctxBase ctxArg) ev { s with evIn := s.evIn + 1 }
    rw [heq] at h1
    exact h1
  · have h1 := do_process_ctxBase procs 0 catchErr now
      (mergeContext s.ctxBase ctxArg) ev { s with evIn := s.evIn + 1 }
    rw [heq] at h1
    exact h1

/-- Claim C10: when `process` is given a caller context, the merged per-event
context carries the base context's value for every key bound in both (the
source merges with `context.update(self._context)`, so base entries
overwrite supplied ones); with no caller context the chain receives a copy of
the base context (value-identical to it); and in either case the pipeline's
base context `_context` is never written by `process`. -/
theorem C10_theorem (base c : Dict) (k : ℕ)
    (h1 : dictHasKey c k = true) (h2 : dictHasKey base k = true) :
    dictLookup (mergeContext base (some c)) k = dictLookup base k ∧
    mergeContext base none = base ∧
    (∀ procs catchErr now s ev a,
      (process procs catchErr now s ev a).ctxBase = s.ctxBase) :=
  ⟨mergeContext_base_wins base c k h2, rfl,
   fun procs catchErr now s ev a => process_ctxBase procs catchErr now s ev a⟩

/-- Witness for C10 on a concrete base context, caller context and chain. -/
theorem C10_witness :
    dictLookup (mergeContext [(1, 100)] (some [(1, 5), (2, 7)])) 1 =
      dictLookup [(1, 100)] 1 ∧
    mergeContext [(1, 100)] none = [(1, 100)] ∧
    (process [[sinkProc]] catchT 0 (evaluate_ready init0) (PyVal.num 4)
      (some [(1, 5)])).ctxBase = (evaluate_ready init0).ctxBase :=
  ⟨(C10_theorem [(1, 100)] [(1, 5), (2, 7)] 1 (by decide) (by decide)).1,
   (C10_theorem [(1, 100)] [(1, 5), (2, 7)] 1 (by decide) (by decide)).2.1,
   (C10_theorem [(1, 100)] [(1, 5), (2, 7)] 1 (by decide) (by decide)).2.2
     [[sinkProc]] catchT 0 (evaluate_ready init0) (PyVal.num 4) (some [(1, 5)])⟩

end BSPump
